import Mathlib

/-!
Verification of the pokemon_api ELT pipeline (src/lab-m1w1.py and
src/solutions.py) against its specification.

The two Python files implement the same pipeline over a DuckDB database
file `pokedex.duckdb` holding three tables:
  * `metadata (last_id INTEGER)`        — the checkpoint store,
  * `pokedex (last_id, pokemon_id, name, url)` — the accumulated table,
  * `pokemon_stats (total_pokemon, first_id, last_id)` — the summary.

Modelling conventions:
  * A database is a pure value `DB`.  `CREATE TABLE IF NOT EXISTS` is the
    identity in this model: an absent table is identified with an empty
    table, which preserves every observation the program makes (the only
    read of `metadata` goes through `COALESCE(MAX(last_id), 0)`).
  * SQL `INTEGER` columns are nullable, hence `metadata` rows are
    `Option Int`.  The explicit `CAST(... AS INTEGER)` in `load_data`
    follows DuckDB semantics: casting an empty string or a value outside
    the signed 32-bit range raises a conversion error.
  * The HTTP fetch is a parameter `fetch limit offset`, returning `none`
    when the request raises (`FetchError`); `requests`/`pandas` glue is
    the identity on the `results` list of `{name, url}` records.
  * `print` previews (`LIMIT 3` in lab-m1w1.py, `LIMIT 5` in
    solutions.py) are console output only and have no effect on state;
    they are not modelled.
  * A raised exception is `none`; DuckDB statements are atomic, so a
    failing `INSERT ... SELECT` commits nothing.
-/

/-- One record of the API response `results` list: `{name, url}`. -/
structure SrcRow where
  name : String
  url : String
deriving DecidableEq, Repr

/-- One row of the accumulated table
`pokedex (last_id INTEGER, pokemon_id INTEGER, name TEXT, url TEXT)`. -/
structure Row where
  last_id : Int
  pokemon_id : Int
  name : String
  url : String
deriving DecidableEq, Repr

/-- The single row of the summary table `pokemon_stats`
(`COUNT(*)`, `MIN(pokemon_id)`, `MAX(pokemon_id)`); the MIN/MAX of an
empty table are NULL. -/
structure Stats where
  total_pokemon : Int
  first_id : Option Int
  last_id : Option Int
deriving DecidableEq, Repr

/-- The persisted database `pokedex.duckdb`.  `pokemon_stats` is `none`
before the table is first created by `transform_data`. -/
structure DB where
  metadata : List (Option Int)
  pokedex : List Row
  pokemon_stats : Option Stats
deriving DecidableEq, Repr

/-- A fresh database file: no rows anywhere. -/
def emptyDB : DB := ⟨[], [], none⟩

/-- SQL `MAX` over a nullable integer column: NULLs are ignored, the MAX
of no (non-NULL) values is NULL. -/
def sqlMaxOpt (l : List (Option Int)) : Option Int :=
  l.foldl
    (fun acc x =>
      match acc, x with
      | none, v => v
      | some m, none => some m
      | some m, some v => some (max m v))
    none

/-- `SELECT COALESCE(MAX(last_id), 0) FROM metadata`
(lab-m1w1.py line 18 / solutions.py line 25). -/
def read_checkpoint (md : List (Option Int)) : Int :=
  (sqlMaxOpt md).getD 0

/-- The checkpoint write performed at the end of `load_data`
(lab-m1w1.py lines 68–70 / solutions.py lines 81–84):
`UPDATE metadata SET last_id = ? WHERE last_id IS NOT NULL`, then
`INSERT INTO metadata VALUES (?)` if `SELECT COUNT(*) FROM metadata`
is zero. -/
def write_checkpoint (md : List (Option Int)) (v : Int) : List (Option Int) :=
  let updated := md.map (fun r => if r.isSome then some v else r)
  if updated.length = 0 then updated ++ [some v] else updated

/-- SQL `MIN` over the (always non-NULL here) `pokemon_id` values. -/
def sqlMinInt (l : List Int) : Option Int :=
  l.foldl
    (fun acc x =>
      match acc with
      | none => some x
      | some m => some (min m x))
    none

/-- SQL `MAX` over the `pokemon_id` values. -/
def sqlMaxInt (l : List Int) : Option Int :=
  l.foldl
    (fun acc x =>
      match acc with
      | none => some x
      | some m => some (max m x))
    none

/-- Decimal digits of `n`, most significant first, via fuel recursion
(`natStrAux fuel n` is the digit list of `n` whenever `n ≤ fuel`). -/
def natStrAux : Nat → Nat → List Char
  | 0, _ => []
  | fuel + 1, n =>
      if n = 0 then [] else natStrAux fuel (n / 10) ++ [Nat.digitChar (n % 10)]

/-- Python `str(n)` for a natural number. -/
def natStr (n : Nat) : List Char :=
  if n = 0 then ['0'] else natStrAux n n

/-- Python `str(n)` for an arbitrary integer. -/
def pyIntStr (n : Int) : List Char :=
  if n < 0 then '-' :: natStr n.natAbs else natStr n.natAbs

/-- Python `str.zfill(w)`: left-pad with `'0'` up to length `w`; a
leading sign character stays in front of the padding; a string already
at least `w` long is returned unchanged. -/
def zfill (w : Nat) (s : List Char) : List Char :=
  if w ≤ s.length then s
  else
    match s with
    | [] => List.replicate w '0'
    | c :: cs =>
        if c = '-' ∨ c = '+' then c :: (List.replicate (w - s.length) '0' ++ cs)
        else List.replicate (w - s.length) '0' ++ (c :: cs)

/-- The parquet file name `f"pokedex_{str(last_id).zfill(w)}.parquet"`
(w = 3 in lab-m1w1.py line 36, w = 10 in solutions.py line 44). -/
def parquetName (w : Nat) (n : Int) : String :=
  ⟨"pokedex_".data ++ zfill w (pyIntStr n) ++ ".parquet".data⟩

/-- Does `cs` begin with the literal character sequence `pat`? -/
def charsBeginWith : List Char → List Char → Bool
  | _, [] => true
  | [], _ :: _ => false
  | c :: cs, p :: ps => c = p && charsBeginWith cs ps

/-- Attempt to match the regex `/pokemon/(\d+)/` at the head of `cs`:
the literal `/pokemon/`, then a maximal nonempty digit run, then `/`.
(The `\d+` is greedy; a shorter run would be followed by a digit, never
by `/`, so the maximal run is the only candidate under both
leftmost-first and leftmost-longest semantics.)  Returns the capture
group (the digit run) on success. -/
def pokemonMatchAt (cs : List Char) : Option (List Char) :=
  if charsBeginWith cs "/pokemon/".data then
    let rest := cs.drop 9
    let run := rest.takeWhile Char.isDigit
    if run.length ≠ 0 ∧ (rest.drop run.length).head? = some '/' then some run
    else none
  else none

/-- Leftmost match of `/pokemon/(\d+)/` in `cs`, as performed by
DuckDB's RE2-based `regexp_extract`. -/
def regexScan : List Char → Option (List Char)
  | [] => none
  | c :: cs =>
      match pokemonMatchAt (c :: cs) with
      | some r => some r
      | none => regexScan cs

/-- DuckDB `regexp_extract(url, '/pokemon/(\d+)/', 1)`: the first
capture group of the leftmost match, or the empty string if the pattern
does not match. -/
def regexpExtractPokemon (url : String) : List Char :=
  (regexScan url.data).getD []

/-- Numeric value of a digit string (leading zeros are harmless). -/
def parseDigitsNat (cs : List Char) : Nat :=
  cs.foldl (fun a c => a * 10 + (c.toNat - 48)) 0

/-- DuckDB `CAST(s AS INTEGER)` on the output of `regexp_extract`:
a conversion error (`none`) on the empty string, on a non-digit
character, or when the value does not fit a signed 32-bit INTEGER. -/
def sqlCastInt32 (s : List Char) : Option Int :=
  if s.isEmpty then none
  else if s.all Char.isDigit then
    let v : Int := (parseDigitsNat s : Int)
    if v ≤ 2147483647 then some v else none
  else none

/-- The derived `pokemon_id` of one record:
`CAST(regexp_extract(url, '/pokemon/(\d+)/', 1) AS INTEGER)`. -/
def pokemonIdOfUrl (url : String) : Option Int :=
  sqlCastInt32 (regexpExtractPokemon url)

/-- One output row of the `INSERT INTO pokedex SELECT ?, CAST(...),
name, url FROM read_parquet(?)` statement. -/
def mkPokedexRow (b : Int) (r : SrcRow) : Option Row :=
  (pokemonIdOfUrl r.url).map (fun i => ⟨b, i, r.name, r.url⟩)

/-- The row set produced by the `INSERT ... SELECT` over the parquet
file's rows.  DuckDB statements are atomic: if any row's cast raises,
the whole statement fails (`none`) and nothing is committed. -/
def insertSelect (b : Int) : List SrcRow → Option (List Row)
  | [] => some []
  | r :: rs =>
      match mkPokedexRow b r, insertSelect b rs with
      | some row, some rows => some (row :: rows)
      | _, _ => none

/-- The result of one `extract_data` call: the parquet file's path and
contents, and the returned `next_id = last_id + limit`. -/
structure ExtractOut where
  file_path : String
  file_rows : List SrcRow
  next_id : Int
deriving DecidableEq, Repr

/-- Writing a file: a later write to the same path shadows an earlier
one. -/
def fsWrite (fs : List (String × List SrcRow)) (p : String) (rows : List SrcRow) :
    List (String × List SrcRow) :=
  (p, rows) :: fs

/-- `read_parquet(path)`: the most recently written contents of `path`. -/
def fsRead (fs : List (String × List SrcRow)) (p : String) : Option (List SrcRow) :=
  (fs.find? (fun e => e.1 = p)).map Prod.snd

/-- `extract_data` of src/lab-m1w1.py (lines 5–40): resolve the offset
from the checkpoint when `last_id is None`, fetch one page, write the
parquet file named with the offset zero-padded to width 3, and return
the path and `last_id + limit`.  The database handle is opened and
closed without writing any row (the `CREATE TABLE IF NOT EXISTS` is the
identity here); the pair returned carries the database state left
behind. -/
def Lab.extract_data (db : DB) (fetch : Int → Int → Option (List SrcRow))
    (limit : Int) (last_id : Option Int) : Option (ExtractOut × DB) :=
  let lastId : Int :=
    match last_id with
    | none => read_checkpoint db.metadata
    | some v => v
  match fetch limit lastId with
  | none => none
  | some results =>
      some (⟨parquetName 3 lastId, results, lastId + limit⟩, db)

/-- `load_data` of src/lab-m1w1.py (lines 42–73): create `pokedex` if
absent, run the atomic `INSERT ... SELECT` with the per-row
`CAST(regexp_extract(url, '/pokemon/(\d+)/', 1) AS INTEGER)`, then
advance the checkpoint (`UPDATE`, and `INSERT` when the table was
empty).  Any conversion error aborts the call with nothing committed. -/
def Lab.load_data (db : DB) (fileRows : List SrcRow) (new_last_id : Int) :
    Option DB :=
  match insertSelect new_last_id fileRows with
  | none => none
  | some newRows =>
      some
        { db with
          pokedex := db.pokedex ++ newRows
          metadata := write_checkpoint db.metadata new_last_id }

/-- `transform_data` of src/lab-m1w1.py (lines 75–89):
`CREATE OR REPLACE TABLE pokemon_stats AS SELECT COUNT(*),
MIN(pokemon_id), MAX(pokemon_id) FROM pokedex`. -/
def Lab.transform_data (db : DB) : DB :=
  { db with
    pokemon_stats :=
      some
        ⟨(db.pokedex.length : Int),
         sqlMinInt (db.pokedex.map Row.pokemon_id),
         sqlMaxInt (db.pokedex.map Row.pokemon_id)⟩ }

/-- `main` of src/lab-m1w1.py (lines 91–103): two extractions with
`limit=30` (the second chained from the first's returned next id), two
loads reading back the written files, then the aggregation. -/
def Lab.main (fetch : Int → Int → Option (List SrcRow)) (db0 : DB) : Option DB :=
  (Lab.extract_data db0 fetch 30 none).bind fun p1 =>
    (Lab.extract_data p1.2 fetch 30 (some p1.1.next_id)).bind fun p2 =>
      let fs := fsWrite (fsWrite [] p1.1.file_path p1.1.file_rows)
        p2.1.file_path p2.1.file_rows
      (fsRead fs p1.1.file_path).bind fun r1 =>
        (Lab.load_data p2.2 r1 p1.1.next_id).bind fun db3 =>
          (fsRead fs p2.1.file_path).bind fun r2 =>
            (Lab.load_data db3 r2 p2.1.next_id).map Lab.transform_data

/-- `extract_data` of src/solutions.py (lines 5–48): identical to the
lab version except the file name pads the offset to width 10. -/
def Solutions.extract_data (db : DB) (fetch : Int → Int → Option (List SrcRow))
    (limit : Int) (last_id : Option Int) : Option (ExtractOut × DB) :=
  let lastId : Int :=
    match last_id with
    | none => read_checkpoint db.metadata
    | some v => v
  match fetch limit lastId with
  | none => none
  | some results =>
      some (⟨parquetName 10 lastId, results, lastId + limit⟩, db)

/-- `load_data` of src/solutions.py (lines 50–87): same statements as
the lab version (the preview differs only in its `LIMIT`, which is
console output). -/
def Solutions.load_data (db : DB) (fileRows : List SrcRow) (new_last_id : Int) :
    Option DB :=
  match insertSelect new_last_id fileRows with
  | none => none
  | some newRows =>
      some
        { db with
          pokedex := db.pokedex ++ newRows
          metadata := write_checkpoint db.metadata new_last_id }

/-- `transform_data` of src/solutions.py (lines 89–110): same
`CREATE OR REPLACE TABLE pokemon_stats` statement as the lab version
(it additionally returns the string "pokemon_stats", which no caller
uses). -/
def Solutions.transform_data (db : DB) : DB :=
  { db with
    pokemon_stats :=
      some
        ⟨(db.pokedex.length : Int),
         sqlMinInt (db.pokedex.map Row.pokemon_id),
         sqlMaxInt (db.pokedex.map Row.pokemon_id)⟩ }

/-- `main` of src/solutions.py (lines 112–125): as the lab driver, with
`limit=10`. -/
def Solutions.main (fetch : Int → Int → Option (List SrcRow)) (db0 : DB) :
    Option DB :=
  (Solutions.extract_data db0 fetch 10 none).bind fun p1 =>
    (Solutions.extract_data p1.2 fetch 10 (some p1.1.next_id)).bind fun p2 =>
      let fs := fsWrite (fsWrite [] p1.1.file_path p1.1.file_rows)
        p2.1.file_path p2.1.file_rows
      (fsRead fs p1.1.file_path).bind fun r1 =>
        (Solutions.load_data p2.2 r1 p1.1.next_id).bind fun db3 =>
          (fsRead fs p2.1.file_path).bind fun r2 =>
            (Solutions.load_data db3 r2 p2.1.next_id).map Solutions.transform_data

example : regexpExtractPokemon "https://pokeapi.co/api/v2/pokemon/25/" = ['2', '5'] := by decide

example : pokemonIdOfUrl "https://pokeapi.co/api/v2/pokemon/25/" = some 25 := by decide

example : pokemonIdOfUrl "https://pokeapi.co/api/v2/pokemon-species/25/" = none := by decide

example : pokemonIdOfUrl "https://x/ab/pokemon/007/tail" = some 7 := by decide

example : pokemonIdOfUrl "https://pokeapi.co/api/v2/berry/3/" = none := by decide

example : pokemonIdOfUrl "https://x/pokemon/3000000000/" = none := by decide

example : parquetName 3 0 = "pokedex_000.parquet" := by decide

example : parquetName 3 1000 = "pokedex_1000.parquet" := by decide

example : parquetName 10 30 = "pokedex_0000000030.parquet" := by decide

example : pyIntStr (-7) = ['-', '7'] := by decide

example : zfill 4 (pyIntStr (-7)) = ['-', '0', '0', '7'] := by decide

example : read_checkpoint (write_checkpoint [] 40) = 40 := by decide

example : read_checkpoint (write_checkpoint [some 3, some 99] 40) = 40 := by decide

/-! ## Helper lemmas about the checkpoint store -/

theorem sqlMaxOpt_from_some (B : Int) (l : List (Option Int))
    (h : ∀ x ∈ l, x = some B) :
    l.foldl
      (fun acc x =>
        match acc, x with
        | none, v => v
        | some m, none => some m
        | some m, some v => some (max m v))
      (some B) = some B := by
  induction l with
  | nil => rfl
  | cons y ys ih =>
      have hy : y = some B := h y (List.mem_cons_self _ _)
      subst hy
      simp only [List.foldl_cons, max_self]
      exact ih (fun x hx => h x (List.mem_cons_of_mem _ hx))

theorem sqlMaxOpt_of_all_eq (B : Int) (l : List (Option Int))
    (hne : l ≠ []) (h : ∀ x ∈ l, x = some B) :
    sqlMaxOpt l = some B := by
  cases l with
  | nil => exact absurd rfl hne
  | cons y ys =>
      have hy : y = some B := h y (List.mem_cons_self _ _)
      subst hy
      unfold sqlMaxOpt
      simp only [List.foldl_cons]
      exact sqlMaxOpt_from_some B ys (fun x hx => h x (List.mem_cons_of_mem _ hx))

theorem write_checkpoint_empty (B : Int) : write_checkpoint [] B = [some B] := rfl

theorem write_checkpoint_of_ne_nil (md : List (Option Int)) (B : Int)
    (hne : md ≠ []) (hmd : ∀ x ∈ md, x ≠ none) :
    write_checkpoint md B = md.map (fun _ => some B) := by
  cases md with
  | nil => exact absurd rfl hne
  | cons y ys =>
      have hmap : (y :: ys).map (fun r => if r.isSome then some B else r)
          = (y :: ys).map (fun _ => some B) := by
        apply List.map_congr_left
        intro x hx
        have hx2 : x.isSome := Option.isSome_iff_ne_none.mpr (hmd x hx)
        simp [hx2]
      unfold write_checkpoint
      rw [hmap]
      rfl

theorem read_write_checkpoint (md : List (Option Int)) (B : Int)
    (hmd : ∀ x ∈ md, x ≠ none) :
    read_checkpoint (write_checkpoint md B) = B := by
  by_cases hne : md = []
  · subst hne
    rfl
  · rw [write_checkpoint_of_ne_nil md B hne hmd]
    unfold read_checkpoint
    rw [sqlMaxOpt_of_all_eq B]
    · rfl
    · simpa using fun h => hne (List.eq_nil_of_length_eq_zero (by simp [h]))
    · intro x hx
      rcases List.mem_map.mp hx with ⟨y, _, hy⟩
      exact hy.symm

/-! ## Helper lemmas about `load_data` -/

theorem Lab.load_data_eq_some (db db' : DB) (rows : List SrcRow) (b : Int)
    (h : Lab.load_data db rows b = some db') :
    ∃ newRows, insertSelect b rows = some newRows ∧
      db' = { db with
              pokedex := db.pokedex ++ newRows
              metadata := write_checkpoint db.metadata b } := by
  unfold Lab.load_data at h
  cases hins : insertSelect b rows with
  | none => rw [hins] at h; exact absurd h (by simp)
  | some newRows =>
      rw [hins] at h
      exact ⟨newRows, rfl, (Option.some.injEq _ _ ▸ h).symm⟩

/-! ## Claim theorems (first batch) -/

/-- C1: after a successful `load_data(f, B)`, the checkpoint read
(`SELECT COALESCE(MAX(last_id), 0) FROM metadata`) returns exactly `B`,
for every prior checkpoint value and whether or not a row existed: when
the table was empty a single row `B` is inserted, otherwise every
existing row's value is overwritten with `B` unconditionally. -/
theorem checkpoint_after_load (db db' : DB) (fileRows : List SrcRow) (B : Int)
    (hmd : ∀ x ∈ db.metadata, x ≠ none)
    (h : Lab.load_data db fileRows B = some db') :
    read_checkpoint db'.metadata = B
    ∧ (db.metadata = [] → db'.metadata = [some B])
    ∧ (db.metadata ≠ [] → db'.metadata = db.metadata.map (fun _ => some B)) := by
  rcases Lab.load_data_eq_some db db' fileRows B h with ⟨newRows, _, rfl⟩
  refine ⟨read_write_checkpoint db.metadata B hmd, ?_, ?_⟩
  · intro hnil
    simp only [hnil]
    rfl
  · intro hne
    exact write_checkpoint_of_ne_nil db.metadata B hne hmd

theorem checkpoint_after_load_witness :
    read_checkpoint (DB.mk [some 40] [] none).metadata = 40 :=
  (checkpoint_after_load ⟨[some 7], [], none⟩ ⟨[some 40], [], none⟩ [] 40
    (by decide) (by decide)).1

/-- C2: a successful `extract_data` returns
`next_offset = resolved_offset + limit`, where the resolved offset is
the caller-supplied `last_id` when present and otherwise the checkpoint
store's current value, which is zero when no checkpoint row has ever
been written. -/
theorem extract_next_offset (db db' : DB) (fetch : Int → Int → Option (List SrcRow))
    (L : Int) (start : Option Int) (out : ExtractOut)
    (h : Lab.extract_data db fetch L start = some (out, db')) :
    out.next_id =
      (match start with
       | some o => o
       | none => read_checkpoint db.metadata) + L
    ∧ (start = none → db.metadata = [] → out.next_id = L) := by
  rcases start with _ | o
  · simp only [Lab.extract_data] at h
    cases hf : fetch L (read_checkpoint db.metadata) with
    | none => rw [hf] at h; exact absurd h (by simp)
    | some results =>
        rw [hf] at h
        have hout : out = ⟨parquetName 3 (read_checkpoint db.metadata), results,
            read_checkpoint db.metadata + L⟩ := by
          have := Option.some.injEq _ _ ▸ h
          exact (congrArg Prod.fst this).symm
        subst hout
        refine ⟨rfl, fun _ hnil => ?_⟩
        simp [read_checkpoint, hnil, sqlMaxOpt]
  · simp only [Lab.extract_data] at h
    cases hf : fetch L o with
    | none => rw [hf] at h; exact absurd h (by simp)
    | some results =>
        rw [hf] at h
        have hout : out = ⟨parquetName 3 o, results, o + L⟩ := by
          have := Option.some.injEq _ _ ▸ h
          exact (congrArg Prod.fst this).symm
        subst hout
        exact ⟨rfl, fun hc => absurd hc (by simp)⟩

theorem extract_next_offset_witness :
    (ExtractOut.mk "pokedex_000.parquet" [] 10).next_id = 0 + 10 :=
  (extract_next_offset emptyDB emptyDB (fun _ _ => some []) 10 none
    ⟨"pokedex_000.parquet", [], 10⟩ (by decide)).1

/-- C7: `extract_data` leaves the database — in particular the
checkpoint store — unchanged: its only statement against the store is
`CREATE TABLE IF NOT EXISTS`, so the metadata rows and the value a
subsequent checkpoint read returns are exactly those before the call. -/
theorem extract_checkpoint_frame (db db' : DB)
    (fetch : Int → Int → Option (List SrcRow)) (L : Int) (start : Option Int)
    (out : ExtractOut)
    (h : Lab.extract_data db fetch L start = some (out, db')) :
    db' = db ∧ db'.metadata = db.metadata
    ∧ read_checkpoint db'.metadata = read_checkpoint db.metadata := by
  have hdb : db' = db := by
    rcases start with _ | o <;> simp only [Lab.extract_data] at h
    · cases hf : fetch L (read_checkpoint db.metadata) with
      | none => rw [hf] at h; exact absurd h (by simp)
      | some results =>
          rw [hf] at h
          exact (congrArg Prod.snd (Option.some.injEq _ _ ▸ h)).symm
    · cases hf : fetch L o with
      | none => rw [hf] at h; exact absurd h (by simp)
      | some results =>
          rw [hf] at h
          exact (congrArg Prod.snd (Option.some.injEq _ _ ▸ h)).symm
  exact ⟨hdb, by rw [hdb], by rw [hdb]⟩

theorem extract_checkpoint_frame_witness :
    (DB.mk [some 5] [] none) = (DB.mk [some 5] [] none) :=
  (extract_checkpoint_frame ⟨[some 5], [], none⟩ ⟨[some 5], [], none⟩
    (fun _ _ => some []) 10 none ⟨"pokedex_005.parquet", [], 15⟩ (by decide)).1

/-- C10: on an empty accumulated table, `transform_data` succeeds and
replaces `pokemon_stats` with exactly one row whose count is 0 and
whose MIN/MAX are NULL. -/
theorem transform_empty_table (db : DB) (h : db.pokedex = []) :
    (Lab.transform_data db).pokemon_stats = some ⟨0, none, none⟩ := by
  simp [Lab.transform_data, h, sqlMinInt, sqlMaxInt]

theorem transform_empty_table_witness :
    (Lab.transform_data emptyDB).pokemon_stats = some ⟨0, none, none⟩ :=
  transform_empty_table emptyDB rfl

/-! ## Helper lemmas about `insertSelect` -/

theorem insertSelect_none_of_bad (b : Int) (rows : List SrcRow) (r : SrcRow)
    (hr : r ∈ rows) (hbad : pokemonIdOfUrl r.url = none) :
    insertSelect b rows = none := by
  induction rows with
  | nil => cases hr
  | cons a as ih =>
      rcases List.mem_cons.mp hr with rfl | hmem
      · unfold insertSelect mkPokedexRow
        rw [hbad]
        cases insertSelect b as <;> rfl
      · unfold insertSelect
        rw [ih hmem]
        cases mkPokedexRow b a <;> rfl

/-- The row produced from one source record, on success. -/
def loadedRow (b : Int) (r : SrcRow) : Row :=
  ⟨b, (pokemonIdOfUrl r.url).getD 0, r.name, r.url⟩

theorem insertSelect_of_all_isSome (b : Int) (rows : List SrcRow)
    (hall : ∀ r ∈ rows, (pokemonIdOfUrl r.url).isSome) :
    insertSelect b rows = some (rows.map (loadedRow b)) := by
  induction rows with
  | nil => rfl
  | cons a as ih =>
      have ha : (pokemonIdOfUrl a.url).isSome := hall a (List.mem_cons_self _ _)
      obtain ⟨i, hi⟩ := Option.isSome_iff_exists.mp ha
      unfold insertSelect
      rw [ih (fun r hr => hall r (List.mem_cons_of_mem _ hr))]
      unfold mkPokedexRow
      rw [hi]
      simp [loadedRow, hi]

theorem insertSelect_some_eq (b : Int) (rows : List SrcRow) (nr : List Row)
    (h : insertSelect b rows = some nr) :
    (∀ r ∈ rows, (pokemonIdOfUrl r.url).isSome)
    ∧ nr = rows.map (loadedRow b) := by
  induction rows generalizing nr with
  | nil =>
      refine ⟨by simp, ?_⟩
      have : some ([] : List Row) = some nr := h
      simpa using this.symm
  | cons a as ih =>
      unfold insertSelect at h
      cases ha : mkPokedexRow b a with
      | none => rw [ha] at h; cases hs : insertSelect b as <;> rw [hs] at h <;> cases h
      | some row =>
          cases hs : insertSelect b as with
          | none => rw [ha, hs] at h; cases h
          | some rest =>
              rw [ha, hs] at h
              have hnr : row :: rest = nr := by
                have := h
                simpa using this
              obtain ⟨hall, hrest⟩ := ih rest hs
              unfold mkPokedexRow at ha
              obtain ⟨i, hi, hrow⟩ := Option.map_eq_some'.mp ha
              constructor
              · intro r hr
                rcases List.mem_cons.mp hr with rfl | hmem
                · simp [hi]
                · exact hall r hmem
              · rw [← hnr, hrest, ← hrow]
                simp [loadedRow, hi]

/-- C3 (amended): a record whose resource locator does not match
`/pokemon/(\d+)/` makes `load_data` fail with zero rows committed
(the atomic `INSERT ... SELECT` raises on `CAST('' AS INTEGER)`); and
when every locator matches *and every captured integer fits in a signed
32-bit `INTEGER`*, all rows are appended, each tagged with the given
batch offset, and the checkpoint is advanced. -/
theorem load_malformed_vs_wellformed (db : DB) (rows : List SrcRow) (B : Int) :
    ((∃ r ∈ rows, regexScan r.url.data = none) → Lab.load_data db rows B = none)
    ∧ ((∀ r ∈ rows, (pokemonIdOfUrl r.url).isSome) →
        Lab.load_data db rows B =
          some
            { db with
              pokedex := db.pokedex ++ rows.map (loadedRow B)
              metadata := write_checkpoint db.metadata B }) := by
  constructor
  · rintro ⟨r, hr, hbad⟩
    have hnone : pokemonIdOfUrl r.url = none := by
      unfold pokemonIdOfUrl regexpExtractPokemon
      rw [hbad]
      rfl
    unfold Lab.load_data
    rw [insertSelect_none_of_bad B rows r hr hnone]
  · intro hall
    unfold Lab.load_data
    rw [insertSelect_of_all_isSome B rows hall]

theorem load_malformed_vs_wellformed_witness :
    Lab.load_data emptyDB [⟨"oddish", "https://pokeapi.co/api/v2/berry/3/"⟩] 10 = none :=
  (load_malformed_vs_wellformed emptyDB
      [⟨"oddish", "https://pokeapi.co/api/v2/berry/3/"⟩] 10).1
    ⟨⟨"oddish", "https://pokeapi.co/api/v2/berry/3/"⟩, by decide, by decide⟩

/-- C3 counterexample to the claim as stated: in this record every
locator matches `/pokemon/(\d+)/` (the capture group is `3000000000`),
yet `load_data` does not append the rows — DuckDB's
`CAST('3000000000' AS INTEGER)` raises because the value exceeds the
signed 32-bit INTEGER range, so the call fails with nothing
committed. -/
theorem load_matching_overflow_cex :
    regexScan "https://pokeapi.co/api/v2/pokemon/3000000000/".data
      = some ['3', '0', '0', '0', '0', '0', '0', '0', '0', '0']
    ∧ Lab.load_data emptyDB
        [⟨"big", "https://pokeapi.co/api/v2/pokemon/3000000000/"⟩] 10 = none :=
  ⟨by decide, by decide⟩

/-- C5: every row committed by a successful `load_data` satisfies the
round-trip property: the stored `pokemon_id` is exactly the integer
captured by `/pokemon/(\d+)/` from the row's own (unchanged) `url`, and
the row's `url`/`name` come from a record of the input file. -/
theorem load_roundtrip_ids (db db' : DB) (rows : List SrcRow) (B : Int)
    (h : Lab.load_data db rows B = some db') :
    ∃ newRows,
      db'.pokedex = db.pokedex ++ newRows
      ∧ newRows.length = rows.length
      ∧ ∀ row ∈ newRows,
          pokemonIdOfUrl row.url = some row.pokemon_id
          ∧ row.last_id = B
          ∧ ∃ r0 ∈ rows, row.url = r0.url ∧ row.name = r0.name := by
  rcases Lab.load_data_eq_some db db' rows B h with ⟨newRows, hins, rfl⟩
  obtain ⟨hall, hmap⟩ := insertSelect_some_eq B rows newRows hins
  refine ⟨newRows, rfl, by rw [hmap, List.length_map], ?_⟩
  intro row hrow
  rw [hmap] at hrow
  rcases List.mem_map.mp hrow with ⟨r0, hr0, hrw⟩
  obtain ⟨i, hi⟩ := Option.isSome_iff_exists.mp (hall r0 hr0)
  refine ⟨?_, ?_, r0, hr0, ?_, ?_⟩
  · rw [← hrw]
    simp [loadedRow, hi]
  · rw [← hrw]; rfl
  · rw [← hrw]; rfl
  · rw [← hrw]; rfl

theorem load_roundtrip_ids_witness :
    ∃ newRows,
      (DB.mk [some 10] [⟨10, 25, "pikachu", "https://pokeapi.co/api/v2/pokemon/25/"⟩]
        none).pokedex = emptyDB.pokedex ++ newRows
      ∧ newRows.length
          = [SrcRow.mk "pikachu" "https://pokeapi.co/api/v2/pokemon/25/"].length
      ∧ ∀ row ∈ newRows,
          pokemonIdOfUrl row.url = some row.pokemon_id
          ∧ row.last_id = 10
          ∧ ∃ r0 ∈ [SrcRow.mk "pikachu" "https://pokeapi.co/api/v2/pokemon/25/"],
              row.url = r0.url ∧ row.name = r0.name :=
  load_roundtrip_ids emptyDB
    ⟨[some 10], [⟨10, 25, "pikachu", "https://pokeapi.co/api/v2/pokemon/25/"⟩], none⟩
    [⟨"pikachu", "https://pokeapi.co/api/v2/pokemon/25/"⟩] 10 (by decide)

/-! ## Decimal-string lemmas: `parseDigitsNat` inverts `zfill ∘ pyIntStr` -/

theorem parseDigitsNat_zeros (k : Nat) (s : List Char) :
    parseDigitsNat (List.replicate k '0' ++ s) = parseDigitsNat s := by
  unfold parseDigitsNat
  rw [List.foldl_append]
  have hz : List.foldl (fun a c => a * 10 + (c.toNat - 48)) 0 (List.replicate k '0') = 0 := by
    induction k with
    | zero => rfl
    | succ j ihj => simpa [List.replicate_succ] using ihj
  rw [hz]

theorem parseDigitsNat_snoc (xs : List Char) (c : Char) :
    parseDigitsNat (xs ++ [c]) = parseDigitsNat xs * 10 + (c.toNat - 48) := by
  unfold parseDigitsNat
  rw [List.foldl_append]
  rfl

theorem digitChar_toNat (d : Nat) (h : d < 10) : (Nat.digitChar d).toNat - 48 = d := by
  revert d
  decide

theorem digitChar_isDigit (d : Nat) (h : d < 10) : (Nat.digitChar d).isDigit = true := by
  revert d
  decide

theorem natStrAux_parse (fuel : Nat) :
    ∀ n, n ≤ fuel → parseDigitsNat (natStrAux fuel n) = n := by
  induction fuel with
  | zero =>
      intro n hn
      interval_cases n
      rfl
  | succ f ih =>
      intro n hn
      by_cases h0 : n = 0
      · subst h0; rfl
      · have hdiv : n / 10 ≤ f := by
          have h1 : n / 10 < n := Nat.div_lt_self (Nat.pos_of_ne_zero h0) (by norm_num)
          omega
        unfold natStrAux
        rw [if_neg h0, parseDigitsNat_snoc, ih (n / 10) hdiv,
          digitChar_toNat (n % 10) (Nat.mod_lt n (by norm_num))]
        have := Nat.div_add_mod n 10
        omega

theorem natStr_parse (n : Nat) : parseDigitsNat (natStr n) = n := by
  by_cases h0 : n = 0
  · subst h0; rfl
  · unfold natStr
    rw [if_neg h0]
    exact natStrAux_parse n n le_rfl

theorem natStrAux_all_digits (fuel : Nat) :
    ∀ n c, c ∈ natStrAux fuel n → c.isDigit = true := by
  induction fuel with
  | zero => intro n c hc; cases hc
  | succ f ih =>
      intro n c hc
      unfold natStrAux at hc
      by_cases h0 : n = 0
      · rw [if_pos h0] at hc; cases hc
      · rw [if_neg h0] at hc
        rcases List.mem_append.mp hc with hmem | hmem
        · exact ih (n / 10) c hmem
        · rcases List.mem_singleton.mp hmem with rfl
          exact digitChar_isDigit (n % 10) (Nat.mod_lt n (by omega))

theorem natStr_all_digits (n : Nat) (c : Char) (hc : c ∈ natStr n) :
    c.isDigit = true := by
  unfold natStr at hc
  by_cases h0 : n = 0
  · rw [if_pos h0] at hc
    rcases List.mem_singleton.mp hc with rfl
    decide
  · rw [if_neg h0] at hc
    exact natStrAux_all_digits n n c hc

theorem natStr_ne_nil (n : Nat) : natStr n ≠ [] := by
  unfold natStr
  by_cases h0 : n = 0
  · rw [if_pos h0]; simp
  · rw [if_neg h0]
    cases n with
    | zero => exact absurd rfl h0
    | succ k =>
        unfold natStrAux
        rw [if_neg h0]
        simp

theorem isDigit_ne_sign (c : Char) (h : c.isDigit = true) : ¬(c = '-' ∨ c = '+') := by
  rintro (rfl | rfl) <;> simp [Char.isDigit] at h

/-- Reading back an integer from its (possibly zero-padded) decimal
string: used only to prove that `zfill ∘ pyIntStr` is injective. -/
def decodeZ (cs : List Char) : Int :=
  if cs.head? = some '-' then -((parseDigitsNat cs.tail : Nat) : Int)
  else ((parseDigitsNat cs : Nat) : Int)

theorem decodeZ_digits (cs : List Char) (hne : cs ≠ [])
    (hd : ∀ c ∈ cs, c.isDigit = true) :
    decodeZ cs = ((parseDigitsNat cs : Nat) : Int) := by
  cases cs with
  | nil => exact absurd rfl hne
  | cons c cs' =>
      have hc : c.isDigit = true := hd c (List.mem_cons_self _ _)
      have hne2 : ¬(c = '-') := fun h => isDigit_ne_sign c hc (Or.inl h)
      unfold decodeZ
      rw [if_neg]
      simp only [List.head?_cons, Option.some.injEq]
      exact hne2

theorem decodeZ_zeros_digits (k : Nat) (cs : List Char) (hne : cs ≠ [])
    (hd : ∀ c ∈ cs, c.isDigit = true) :
    decodeZ (List.replicate k '0' ++ cs) = ((parseDigitsNat cs : Nat) : Int) := by
  cases k with
  | zero => simpa using decodeZ_digits cs hne hd
  | succ j =>
      unfold decodeZ
      rw [if_neg (by simp [List.replicate_succ])]
      rw [parseDigitsNat_zeros]

theorem zfill_of_le (w : Nat) (s : List Char) (h : w ≤ s.length) : zfill w s = s := by
  unfold zfill
  rw [if_pos h]

theorem zfill_pad (w : Nat) (c : Char) (cs : List Char)
    (h : ¬w ≤ (c :: cs).length) (hc : ¬(c = '-' ∨ c = '+')) :
    zfill w (c :: cs) = List.replicate (w - (c :: cs).length) '0' ++ (c :: cs) := by
  unfold zfill
  rw [if_neg h]
  show (if c = '-' ∨ c = '+' then c :: (List.replicate (w - (c :: cs).length) '0' ++ cs)
        else List.replicate (w - (c :: cs).length) '0' ++ (c :: cs))
      = List.replicate (w - (c :: cs).length) '0' ++ (c :: cs)
  exact if_neg hc

theorem zfill_sign_pad (w : Nat) (c : Char) (cs : List Char)
    (h : ¬w ≤ (c :: cs).length) (hc : c = '-' ∨ c = '+') :
    zfill w (c :: cs) = c :: (List.replicate (w - (c :: cs).length) '0' ++ cs) := by
  unfold zfill
  rw [if_neg h]
  show (if c = '-' ∨ c = '+' then c :: (List.replicate (w - (c :: cs).length) '0' ++ cs)
        else List.replicate (w - (c :: cs).length) '0' ++ (c :: cs))
      = c :: (List.replicate (w - (c :: cs).length) '0' ++ cs)
  exact if_pos hc

theorem zfill_decode (w : Nat) (n : Int) :
    decodeZ (zfill w (pyIntStr n)) = n := by
  by_cases hneg : n < 0
  · have habs : ((n.natAbs : Nat) : Int) = -n := by omega
    have hps : pyIntStr n = '-' :: natStr n.natAbs := by
      unfold pyIntStr
      rw [if_pos hneg]
    rw [hps]
    by_cases hw : w ≤ ('-' :: natStr n.natAbs).length
    · rw [zfill_of_le _ _ hw]
      unfold decodeZ
      rw [if_pos (by simp)]
      simp only [List.tail_cons]
      rw [natStr_parse, habs]
      omega
    · rw [zfill_sign_pad _ _ _ hw (Or.inl rfl)]
      unfold decodeZ
      rw [if_pos (by simp)]
      simp only [List.tail_cons]
      rw [parseDigitsNat_zeros, natStr_parse, habs]
      omega
  · have habs : ((n.natAbs : Nat) : Int) = n := Int.natAbs_of_nonneg (by omega)
    have hps : pyIntStr n = natStr n.natAbs := by
      unfold pyIntStr
      rw [if_neg hneg]
    rw [hps]
    by_cases hw : w ≤ (natStr n.natAbs).length
    · rw [zfill_of_le _ _ hw]
      rw [decodeZ_digits _ (natStr_ne_nil _) (natStr_all_digits _), natStr_parse, habs]
    · cases hns : natStr n.natAbs with
      | nil => exact absurd hns (natStr_ne_nil _)
      | cons c cs =>
          have hc : c.isDigit = true :=
            natStr_all_digits n.natAbs c (by rw [hns]; exact List.mem_cons_self _ _)
          rw [hns] at hw
          rw [zfill_pad _ _ _ hw (isDigit_ne_sign c hc)]
          rw [decodeZ_zeros_digits _ _ (by simp)
            (fun x hx => natStr_all_digits n.natAbs x (by rw [hns]; exact hx))]
          rw [← hns, natStr_parse, habs]

theorem zfill_pyIntStr_inj (w : Nat) (a b : Int)
    (h : zfill w (pyIntStr a) = zfill w (pyIntStr b)) : a = b := by
  have ha := zfill_decode w a
  have hb := zfill_decode w b
  rw [h] at ha
  omega

theorem parquetName_inj (w : Nat) (a b : Int)
    (h : parquetName w a = parquetName w b) : a = b := by
  have hdata : "pokedex_".data ++ zfill w (pyIntStr a) ++ ".parquet".data
      = "pokedex_".data ++ zfill w (pyIntStr b) ++ ".parquet".data :=
    congrArg String.data h
  rw [List.append_assoc, List.append_assoc] at hdata
  have h2 := List.append_cancel_left hdata
  have h3 := List.append_cancel_right h2
  exact zfill_pyIntStr_inj w a b h3

/-! ## Length lemmas for the zero-padded file name -/

theorem natStrAux_length_le (fuel : Nat) :
    ∀ n k, n < 10 ^ k → (natStrAux fuel n).length ≤ k := by
  induction fuel with
  | zero => intro n k _; simp [natStrAux]
  | succ f ih =>
      intro n k hk
      by_cases h0 : n = 0
      · subst h0; simp [natStrAux]
      · unfold natStrAux
        rw [if_neg h0]
        cases k with
        | zero =>
            have h1 : n < 1 := by simpa using hk
            omega
        | succ j =>
            have hdiv : n / 10 < 10 ^ j := by
              rw [Nat.div_lt_iff_lt_mul (by norm_num : (0 : Nat) < 10)]
              rw [pow_succ] at hk
              exact hk
            have h2 := ih (n / 10) j hdiv
            simp only [List.length_append, List.length_cons, List.length_nil]
            omega

theorem natStr_length_le (n k : Nat) (hk : 1 ≤ k) (h : n < 10 ^ k) :
    (natStr n).length ≤ k := by
  unfold natStr
  by_cases h0 : n = 0
  · rw [if_pos h0]; simpa using hk
  · rw [if_neg h0]; exact natStrAux_length_le n n k h

theorem zfill_length (w : Nat) (s : List Char) (h : s.length ≤ w) :
    (zfill w s).length = w := by
  by_cases hw : w ≤ s.length
  · rw [zfill_of_le _ _ hw]; omega
  · cases s with
    | nil =>
        unfold zfill
        rw [if_neg hw]
        simp
    | cons c cs =>
        by_cases hc : c = '-' ∨ c = '+'
        · rw [zfill_sign_pad _ _ _ hw hc]
          simp only [List.length_cons, List.length_append, List.length_replicate]
          simp only [List.length_cons] at h
          omega
        · rw [zfill_pad _ _ _ hw hc]
          simp only [List.length_cons, List.length_append, List.length_replicate]
          simp only [List.length_cons] at h
          omega

theorem parquetName_length (w : Nat) (n : Int) :
    (parquetName w n).length = 8 + (zfill w (pyIntStr n)).length + 8 := by
  unfold parquetName
  show ("pokedex_".data ++ zfill w (pyIntStr n) ++ ".parquet".data).length = _
  rw [List.length_append, List.length_append]
  have h1 : "pokedex_".data.length = 8 := by decide
  have h2 : ".parquet".data.length = 8 := by decide
  omega

/-- C8 (amended): the file name embeds the resolved offset zero-padded
to a *minimum* width (3 in lab-m1w1.py, 10 in solutions.py).  No two
distinct offsets ever produce colliding names, at any width; but the
names share one fixed length only while the offset's decimal form fits
in the width — e.g. width-3 names have length 19 exactly for offsets
`0 ≤ o < 1000`, and grow beyond that. -/
theorem parquetName_fixed_width :
    (∀ (w : Nat) (a b : Int), parquetName w a = parquetName w b → a = b)
    ∧ (∀ o : Int, 0 ≤ o → o < 1000 → (parquetName 3 o).length = 19) := by
  constructor
  · exact parquetName_inj
  · intro o h0 h3
    have habs : o.natAbs < 10 ^ 3 := by
      norm_num
      omega
    have hps : pyIntStr o = natStr o.natAbs := by
      unfold pyIntStr
      rw [if_neg (by omega)]
    have hlen : (pyIntStr o).length ≤ 3 := by
      rw [hps]
      exact natStr_length_le _ 3 (by norm_num) habs
    rw [parquetName_length, zfill_length _ _ hlen]

theorem parquetName_fixed_width_witness :
    ((5 : Int) = 5) ∧ (parquetName 3 7).length = 19 :=
  ⟨parquetName_fixed_width.1 3 5 5 rfl,
   parquetName_fixed_width.2 7 (by norm_num) (by norm_num)⟩

/-- C8 counterexample to the claim as stated: the implementation's file
names do not all have the same length — `str(offset).zfill(3)` pads
only up to a *minimum* width, so offset 1000 yields a 20-character name
while offset 0 yields a 19-character one. -/
theorem parquetName_length_cex :
    parquetName 3 0 = "pokedex_000.parquet"
    ∧ parquetName 3 1000 = "pokedex_1000.parquet"
    ∧ "pokedex_1000.parquet".length ≠ "pokedex_000.parquet".length :=
  ⟨by decide, by decide, by decide⟩

/-! ## Aggregation -/

theorem Lab.transform_data_stats (db : DB) :
    (Lab.transform_data db).pokemon_stats =
      some ⟨(db.pokedex.length : Int),
            sqlMinInt (db.pokedex.map Row.pokemon_id),
            sqlMaxInt (db.pokedex.map Row.pokemon_id)⟩ := rfl

/-- C4: `transform_data` replaces the summary table with the single row
`(COUNT(*), MIN(pokemon_id), MAX(pokemon_id))` computed over the entire
accumulated table; in particular, loading two batches with disjoint id
sets into an initially empty table and then aggregating yields count
`n1 + n2` and the global MIN/MAX over all loaded ids. -/
theorem transform_aggregates (db0 db1 db2 : DB) (rows1 rows2 : List SrcRow)
    (b1 b2 : Int)
    (h0 : db0.pokedex = [])
    (h1 : Lab.load_data db0 rows1 b1 = some db1)
    (h2 : Lab.load_data db1 rows2 b2 = some db2)
    (hdisj : ∀ i ∈ rows1.map (fun r => (pokemonIdOfUrl r.url).getD 0),
        i ∉ rows2.map (fun r => (pokemonIdOfUrl r.url).getD 0)) :
    (Lab.transform_data db2).pokemon_stats =
      some
        ⟨((rows1.length + rows2.length : Nat) : Int),
         sqlMinInt ((rows1 ++ rows2).map (fun r => (pokemonIdOfUrl r.url).getD 0)),
         sqlMaxInt ((rows1 ++ rows2).map (fun r => (pokemonIdOfUrl r.url).getD 0))⟩
    ∧ db2.pokedex.length = rows1.length + rows2.length := by
  rcases Lab.load_data_eq_some _ _ _ _ h1 with ⟨nr1, hins1, rfl⟩
  rcases Lab.load_data_eq_some _ _ _ _ h2 with ⟨nr2, hins2, rfl⟩
  obtain ⟨_, hm1⟩ := insertSelect_some_eq b1 rows1 nr1 hins1
  obtain ⟨_, hm2⟩ := insertSelect_some_eq b2 rows2 nr2 hins2
  subst hm1
  subst hm2
  rw [Lab.transform_data_stats]
  have hcomp1 : Row.pokemon_id ∘ loadedRow b1
      = fun r => (pokemonIdOfUrl r.url).getD 0 := rfl
  have hcomp2 : Row.pokemon_id ∘ loadedRow b2
      = fun r => (pokemonIdOfUrl r.url).getD 0 := rfl
  constructor
  · simp only [h0, List.nil_append, List.map_append, List.map_map, hcomp1, hcomp2,
      List.length_append, List.length_map, Nat.cast_add, Option.some.injEq,
      Stats.mk.injEq]
  · simp [h0]

theorem transform_aggregates_witness :
    (Lab.transform_data
        ⟨[some 60],
         [⟨30, 1, "bulbasaur", "https://pokeapi.co/api/v2/pokemon/1/"⟩,
          ⟨60, 2, "ivysaur", "https://pokeapi.co/api/v2/pokemon/2/"⟩],
         none⟩).pokemon_stats = some ⟨2, some 1, some 2⟩ := by
  have h := (transform_aggregates emptyDB
      ⟨[some 30], [⟨30, 1, "bulbasaur", "https://pokeapi.co/api/v2/pokemon/1/"⟩], none⟩
      ⟨[some 60],
       [⟨30, 1, "bulbasaur", "https://pokeapi.co/api/v2/pokemon/1/"⟩,
        ⟨60, 2, "ivysaur", "https://pokeapi.co/api/v2/pokemon/2/"⟩],
       none⟩
      [⟨"bulbasaur", "https://pokeapi.co/api/v2/pokemon/1/"⟩]
      [⟨"ivysaur", "https://pokeapi.co/api/v2/pokemon/2/"⟩]
      30 60 rfl (by decide) (by decide) (by decide)).1
  exact h.trans (by decide)

/-! ## The drivers -/

theorem Lab.extract_data_char_none (db db' : DB)
    (fetch : Int → Int → Option (List SrcRow)) (L : Int) (out : ExtractOut)
    (h : Lab.extract_data db fetch L none = some (out, db')) :
    db = db'
    ∧ fetch L (read_checkpoint db.metadata) = some out.file_rows
    ∧ out.file_path = parquetName 3 (read_checkpoint db.metadata)
    ∧ out.next_id = read_checkpoint db.metadata + L := by
  simp only [Lab.extract_data] at h
  cases hf : fetch L (read_checkpoint db.metadata) with
  | none => rw [hf] at h; cases h
  | some page =>
      rw [hf] at h
      rw [Option.some_inj, Prod.mk.injEq] at h
      obtain ⟨hout, hdb⟩ := h
      refine ⟨hdb, ?_, ?_, ?_⟩
      · rw [← hout]
      · rw [← hout]
      · rw [← hout]

theorem Lab.extract_data_char_some (db db' : DB)
    (fetch : Int → Int → Option (List SrcRow)) (L v : Int) (out : ExtractOut)
    (h : Lab.extract_data db fetch L (some v) = some (out, db')) :
    db = db'
    ∧ fetch L v = some out.file_rows
    ∧ out.file_path = parquetName 3 v
    ∧ out.next_id = v + L := by
  simp only [Lab.extract_data] at h
  cases hf : fetch L v with
  | none => rw [hf] at h; cases h
  | some page =>
      rw [hf] at h
      rw [Option.some_inj, Prod.mk.injEq] at h
      obtain ⟨hout, hdb⟩ := h
      refine ⟨hdb, ?_, ?_, ?_⟩
      · rw [← hout]
      · rw [← hout]
      · rw [← hout]

/-- C6 (amended): in the lab driver, the offset recorded against the
rows loaded from a page's file is the extraction's returned
`next_offset = fetch_offset + limit`, not the fetch offset itself: with
`c0` the checkpoint value at the start of the run, the page fetched at
`c0` is loaded tagged `c0 + 30` and the page fetched at `c0 + 30` is
loaded tagged `c0 + 30 + 30`.  What is threaded unchanged from an
extraction to its load call is the returned next offset. -/
theorem main_threads_next_offset (fetch : Int → Int → Option (List SrcRow))
    (db0 db' : DB) (h : Lab.main fetch db0 = some db') :
    ∃ page1 page2,
      fetch 30 (read_checkpoint db0.metadata) = some page1
      ∧ fetch 30 (read_checkpoint db0.metadata + 30) = some page2
      ∧ db'.pokedex =
          db0.pokedex
            ++ page1.map (loadedRow (read_checkpoint db0.metadata + 30))
            ++ page2.map (loadedRow (read_checkpoint db0.metadata + 30 + 30)) := by
  unfold Lab.main at h
  cases he1 : Lab.extract_data db0 fetch 30 none with
  | none => rw [he1] at h; exact absurd h (by simp)
  | some p1 =>
      rw [he1] at h
      obtain ⟨o1, db1⟩ := p1
      obtain ⟨hdb1, hf1, hp1, hn1⟩ := Lab.extract_data_char_none db0 db1 fetch 30 o1 he1
      subst hdb1
      simp only [Option.some_bind] at h
      cases he2 : Lab.extract_data db0 fetch 30 (some o1.next_id) with
      | none => rw [he2] at h; exact absurd h (by simp)
      | some p2 =>
          rw [he2] at h
          obtain ⟨o2, db2⟩ := p2
          obtain ⟨hdb2, hf2, hp2, hn2⟩ :=
            Lab.extract_data_char_some db0 db2 fetch 30 o1.next_id o2 he2
          subst hdb2
          simp only [Option.some_bind] at h
          have hneq : o2.file_path ≠ o1.file_path := by
            rw [hp1, hp2]
            intro hcontra
            have h30 := parquetName_inj 3 _ _ hcontra
            rw [hn1] at h30
            omega
          have hr1 : fsRead
              (fsWrite (fsWrite [] o1.file_path o1.file_rows) o2.file_path o2.file_rows)
              o1.file_path = some o1.file_rows := by
            simp [fsRead, fsWrite, List.find?, hneq]
          have hr2 : fsRead
              (fsWrite (fsWrite [] o1.file_path o1.file_rows) o2.file_path o2.file_rows)
              o2.file_path = some o2.file_rows := by
            simp [fsRead, fsWrite, List.find?]
          rw [hr1] at h
          simp only [Option.some_bind] at h
          cases hl1 : Lab.load_data db0 o1.file_rows o1.next_id with
          | none => rw [hl1] at h; exact absurd h (by simp)
          | some db3 =>
              rw [hl1] at h
              simp only [Option.some_bind] at h
              rw [hr2] at h
              simp only [Option.some_bind] at h
              cases hl2 : Lab.load_data db3 o2.file_rows o2.next_id with
              | none => rw [hl2] at h; exact absurd h (by simp)
              | some db4 =>
                  rw [hl2] at h
                  rw [Option.map_some', Option.some_inj] at h
                  rcases Lab.load_data_eq_some _ _ _ _ hl1 with ⟨nrA, hinsA, rfl⟩
                  rcases Lab.load_data_eq_some _ _ _ _ hl2 with ⟨nrB, hinsB, rfl⟩
                  obtain ⟨_, hmA⟩ := insertSelect_some_eq _ _ _ hinsA
                  obtain ⟨_, hmB⟩ := insertSelect_some_eq _ _ _ hinsB
                  subst hmA
                  subst hmB
                  refine ⟨o1.file_rows, o2.file_rows, hf1, ?_, ?_⟩
                  · rw [← hn1]; exact hf2
                  · rw [← h]
                    rw [hn1] at hn2
                    rw [hn1, hn2]
                    rfl

/-- A stub HTTP source for concrete runs of the driver: offset 0 serves
the record with id 1, offset 30 serves the record with id 2, and every
other offset fails. -/
def stubFetch : Int → Int → Option (List SrcRow) := fun _ offset =>
  if offset = 0 then some [⟨"bulbasaur", "https://pokeapi.co/api/v2/pokemon/1/"⟩]
  else if offset = 30 then some [⟨"ivysaur", "https://pokeapi.co/api/v2/pokemon/2/"⟩]
  else none

/-- C6 counterexample to the claim as stated: running the lab driver on
a fresh database, the page fetched at checkpoint offset 0 (the record
with id 1, served only at offset 0 by `stubFetch`) is recorded with
offset 30, and the page fetched at offset 30 with offset 60 — the
checkpoint value used to fetch a page is not the offset recorded
against the rows loaded from that page's file. -/
theorem main_offset_tag_cex :
    Lab.main stubFetch emptyDB =
      some
        ⟨[some 60],
         [⟨30, 1, "bulbasaur", "https://pokeapi.co/api/v2/pokemon/1/"⟩,
          ⟨60, 2, "ivysaur", "https://pokeapi.co/api/v2/pokemon/2/"⟩],
         some ⟨2, some 1, some 2⟩⟩
    ∧ (30 : Int) ≠ 0 :=
  ⟨by decide, by decide⟩

theorem main_threads_next_offset_witness :
    ∃ page1 page2,
      stubFetch 30 (read_checkpoint emptyDB.metadata) = some page1
      ∧ stubFetch 30 (read_checkpoint emptyDB.metadata + 30) = some page2
      ∧ (DB.mk [some 60]
          [⟨30, 1, "bulbasaur", "https://pokeapi.co/api/v2/pokemon/1/"⟩,
           ⟨60, 2, "ivysaur", "https://pokeapi.co/api/v2/pokemon/2/"⟩]
          (some ⟨2, some 1, some 2⟩)).pokedex =
          emptyDB.pokedex
            ++ page1.map (loadedRow (read_checkpoint emptyDB.metadata + 30))
            ++ page2.map (loadedRow (read_checkpoint emptyDB.metadata + 30 + 30)) :=
  main_threads_next_offset stubFetch emptyDB
    ⟨[some 60],
     [⟨30, 1, "bulbasaur", "https://pokeapi.co/api/v2/pokemon/1/"⟩,
      ⟨60, 2, "ivysaur", "https://pokeapi.co/api/v2/pokemon/2/"⟩],
     some ⟨2, some 1, some 2⟩⟩ (by decide)

/-- C9: the two reference implementations agree observationally: their
`extract_data` functions return the same rows, the same next offset and
the same database state on identical inputs (the file *name* differs
only in its zero-padding width, 3 vs 10), and their `load_data` and
`transform_data` functions produce identical database states on
identical inputs. -/
theorem implementations_agree :
    (∀ (db : DB) (fetch : Int → Int → Option (List SrcRow)) (L : Int)
        (start : Option Int),
        (Lab.extract_data db fetch L start).map
            (fun p => (p.1.file_rows, p.1.next_id, p.2))
          = (Solutions.extract_data db fetch L start).map
              (fun p => (p.1.file_rows, p.1.next_id, p.2)))
    ∧ (∀ (db : DB) (rows : List SrcRow) (b : Int),
        Lab.load_data db rows b = Solutions.load_data db rows b)
    ∧ (∀ db : DB, Lab.transform_data db = Solutions.transform_data db) := by
  refine ⟨?_, ?_, ?_⟩
  · intro db fetch L start
    rcases start with _ | o
    · simp only [Lab.extract_data, Solutions.extract_data]
      cases fetch L (read_checkpoint db.metadata) <;> rfl
    · simp only [Lab.extract_data, Solutions.extract_data]
      cases fetch L o <;> rfl
  · intro db rows b
    rfl
  · intro db
    rfl
